import Mathlib

set_option maxRecDepth 8000

/-!
Formal model of the house-hunting market-data collector (house-hunting.py).

The program is a sequential fetch → parse → normalize → push pipeline.  We
embed its pure core: the field extractors (`get_clean_number`,
`get_clean_premium_percentage`), the date helpers (`get_last_day_of_month`),
the record normalizer (`normalize_record_for_grist`), the CSV time-series
reduction (`scrape_streeteasy_data`), the HTML market-page parser
(`scrape_market_summary`, over the ten selected elements), and the __main__
merge-and-recompute step for the StreetEasy feeds.

Modelling conventions:
  * Python floats are modelled by exact rationals; the special values
    inf/nan (and underscore digit separators, surrounding whitespace) of
    Python's float() literals are outside the model.
  * Python dicts are modelled by association lists with first-match lookup
    and replace-in-place assignment, or (for the per-neighborhood maps) by
    functions `String → Option _`.
  * String operations are modelled on the underlying character lists (the
    source only ever replaces or splits on single characters).
  * An uncaught Python exception is an explicit `.error ()` value; `try`
    blocks are the corresponding `match`es.
  * The network layer is abstracted: each parser receives the text/rows the
    response would carry; transport failure corresponds to the caller's
    failure branch, which the source converts to None / an empty mapping.
-/

/-- Scalar values stored in a record (the Python dict values used by this
program): strings, integers, Python floats (modelled as rationals), the
internal datetime bookkeeping object, and the null marker (Python None). -/
inductive Value where
  | str (s : String)
  | int (n : ℤ)
  | rat (q : ℚ)
  | dateV (y m d : ℕ)
  | null
deriving DecidableEq, Repr

/-- Decidable equality for extractor results, so concrete runs can be
checked by `decide`. -/
instance : DecidableEq (Except Unit Value) := fun x y =>
  match x, y with
  | .error (), .error () => isTrue rfl
  | .ok a, .ok b =>
    if h : a = b then isTrue (by rw [h]) else isFalse (by simp [h])
  | .error _, .ok _ => isFalse (by simp)
  | .ok _, .error _ => isFalse (by simp)

/-- Python dict lookup `d.get(k)`: the value at key `k` (first occurrence). -/
def alistGet (d : List (String × Value)) (k : String) : Option Value :=
  (d.find? (fun p => p.1 == k)).map (fun p => p.2)

/-- Python dict assignment `d[k] = v`: replace in place when the key exists,
otherwise append at the end (dict insertion order). -/
def alistSet (d : List (String × Value)) (k : String) (v : Value) :
    List (String × Value) :=
  if (d.find? (fun p => p.1 == k)).isSome then
    d.map (fun p => if p.1 == k then (k, v) else p)
  else d ++ [(k, v)]

/-- Python `del d[k]`. -/
def alistDel (d : List (String × Value)) (k : String) : List (String × Value) :=
  d.filter (fun p => p.1 != k)

/-- Python `d.update(e)`: assign each entry of `e` into `d`, in order. -/
def dictUpdate (d e : List (String × Value)) : List (String × Value) :=
  e.foldl (fun a p => alistSet a p.1 p.2) d

/-- ASCII decimal digit. -/
def isDigitCh (c : Char) : Bool := c.isDigit

/-- Python \s on the ASCII characters these pages produce. -/
def isSpaceCh (c : Char) : Bool :=
  c == ' ' || c == '\t' || c == '\n' || c == '\r'

/-- Python `text.replace(c, '')` for a one-character pattern (the only kind
the source uses): drop every occurrence of `c`. -/
def pyRemoveChar (s : String) (c : Char) : String :=
  String.mk (s.data.filter (fun x => x != c))

/-- Python `c in text` for a one-character `c`. -/
def containsCh (s : String) (c : Char) : Bool := s.data.contains c

/-- Python `text.strip()`: drop leading and trailing whitespace. -/
def pyStrip (s : String) : String :=
  String.mk (((s.data.dropWhile isSpaceCh).reverse.dropWhile isSpaceCh).reverse)

/-- Python `text.split(c)` for a one-character separator. -/
def splitOnChar (c : Char) : List Char → List (List Char)
  | [] => [[]]
  | x :: t =>
    match splitOnChar c t with
    | [] => [[x]]
    | h :: r => if x == c then [] :: h :: r else (x :: h) :: r

/-- Numeric value of a digit string, most significant digit first. -/
def digitsToNat (ds : List Char) : ℕ :=
  ds.foldl (fun a c => 10 * a + (c.toNat - 48)) 0

/-- Model of `re.sub(r'[^\d]', '', text)`: keep only the digit characters. -/
def filterDigits (s : String) : List Char := s.data.filter isDigitCh

/-- Model of `int(s)` on a digits-only string: fails exactly on the empty
string (the digit filter leaves nothing but digits). -/
def pyIntOfDigits (ds : List Char) : Option ℤ :=
  if ds = [] then none else some (digitsToNat ds : ℤ)

/-- Exponent part of a Python float literal, after the `e`/`E`: optional sign
then at least one digit, nothing else. -/
def pyFloatExp (sgn : ℚ) (mant : ℚ) (r : List Char) : Option ℚ :=
  let esgn : ℤ := match r with | '-' :: _ => -1 | _ => 1
  let r1 : List Char := match r with | '+' :: t => t | '-' :: t => t | _ => r
  let ed := r1.takeWhile isDigitCh
  if ed = [] ∨ r1.dropWhile isDigitCh ≠ [] then none
  else some (sgn * mant * (10 : ℚ) ^ (esgn * (digitsToNat ed : ℤ)))

/-- Model of Python `float(s)` on finite decimal literals: optional sign,
integer part, optional fractional part (at least one digit between them),
optional exponent.  `none` models a ValueError. -/
def pyFloat (s : String) : Option ℚ :=
  let cs := s.data
  let sgn : ℚ := match cs with | '-' :: _ => -1 | _ => 1
  let cs1 : List Char := match cs with | '+' :: t => t | '-' :: t => t | _ => cs
  let ip := cs1.takeWhile isDigitCh
  let r1 := cs1.dropWhile isDigitCh
  let fp : List Char := match r1 with | '.' :: t => t.takeWhile isDigitCh | _ => []
  let r2 : List Char := match r1 with | '.' :: t => t.dropWhile isDigitCh | _ => r1
  if ip = [] ∧ fp = [] then none
  else
    let mant : ℚ := (digitsToNat ip : ℚ) + (digitsToNat fp : ℚ) / (10 : ℚ) ^ fp.length
    match r2 with
    | [] => some (sgn * mant)
    | 'e' :: t => pyFloatExp sgn mant t
    | 'E' :: t => pyFloatExp sgn mant t
    | _ => none

/-- Floor of a rational as an integer (flooring division of the reduced
numerator by the denominator). -/
def ratFloor (q : ℚ) : ℤ := Int.fdiv q.num (q.den : ℤ)

/-- Round to the nearest integer, ties to even (Python's round). -/
def roundHalfEven (q : ℚ) : ℤ :=
  let f := ratFloor q
  let r := q - (f : ℚ)
  if r < 1 / 2 then f
  else if 1 / 2 < r then f + 1
  else if f % 2 = 0 then f else f + 1

/-- Python `round(x, n)`: round to `n` decimal digits, ties to even. -/
def pyRoundTo (q : ℚ) (n : ℕ) : ℚ :=
  (roundHalfEven (q * (10 : ℚ) ^ n) : ℚ) / (10 : ℚ) ^ n

/-- Python `int(x)` on a float: truncation toward zero. -/
def pyTrunc (q : ℚ) : ℤ := Int.tdiv q.num (q.den : ℤ)

/-- calendar.isleap. -/
def isLeap (y : ℕ) : Bool :=
  y % 4 == 0 && (y % 100 != 0 || y % 400 == 0)

/-- Second component of calendar.monthrange: the number of days in the
month, 1-based (months outside 1..12 never reach it in this model). -/
def daysInMonth (y m : ℕ) : ℕ :=
  if m = 2 then (if isLeap y then 29 else 28)
  else if m = 4 ∨ m = 6 ∨ m = 9 ∨ m = 11 then 30 else 31

/-- The English month names matched by strptime's %B. -/
def monthNames : List String :=
  ["January", "February", "March", "April", "May", "June", "July",
   "August", "September", "October", "November", "December"]

/-- strptime %B: a full English month name, matched case-insensitively;
result is 1-based. -/
def monthIndex (cs : List Char) : Option ℕ :=
  (monthNames.findIdx?
    (fun n => n.data.map Char.toLower == cs.map Char.toLower)).map (fun i => i + 1)

/-- strptime %Y: exactly four digits. -/
def parseYear4 (cs : List Char) : Option ℕ :=
  if cs.length == 4 && cs.all isDigitCh then some (digitsToNat cs) else none

/-- strptime %m / %d: one or two digits. -/
def parseNum2 (cs : List Char) : Option ℕ :=
  if (cs.length == 1 || cs.length == 2) && cs.all isDigitCh then
    some (digitsToNat cs)
  else none

/-- `datetime.strptime(s, %B %Y)` followed by datetime construction (which
requires year ≥ 1): month (1-based) and year, or `none` for a ValueError. -/
def parseMonthYear (s : String) : Option (ℕ × ℕ) :=
  match splitOnChar ' ' s.data with
  | [na, ys] =>
    match monthIndex na, parseYear4 ys with
    | some m, some y => if y = 0 then none else some (m, y)
    | _, _ => none
  | _ => none

/-- Source `get_last_day_of_month`: parse 'Month YYYY', take the last day of
that month, and format it.  The `%#m/%#d/%Y` directive is modelled as
unpadded month/day (the no-leading-zero formatting the source states as its
intent).  An unparsable input returns None instead of raising. -/
def get_last_day_of_month (month_year_str : String) : Option String :=
  match parseMonthYear month_year_str with
  | none => none
  | some (m, y) =>
      some (toString m ++ "/" ++ toString (daysInMonth y m) ++ "/" ++ toString y)

/-- `datetime.strptime(s, %Y-%m-%d)` with datetime validation: year of four
digits and ≥ 1, month 1..12, day valid for that month. -/
def parseYMD (s : String) : Option (ℕ × ℕ × ℕ) :=
  match splitOnChar '-' s.data with
  | [ys, ms, ds] =>
    match parseYear4 ys, parseNum2 ms, parseNum2 ds with
    | some y, some m, some d =>
      if y = 0 ∨ m = 0 ∨ 12 < m ∨ d = 0 ∨ daysInMonth y m < d then none
      else some (y, m, d)
    | _, _, _ => none
  | _ => none

/-- Zero-padded two-digit rendering (strftime %m / %d). -/
def pad2 (n : ℕ) : String := if n < 10 then "0" ++ toString n else toString n

/-- Last day of the month of the given (y, m, d), formatted %m/%d/%Y. -/
def fmtMonthEnd (c : ℕ × ℕ × ℕ) : String :=
  pad2 c.2.1 ++ "/" ++ pad2 (daysInMonth c.1 c.2.1) ++ "/" ++ toString c.1

/-- Source `get_clean_number`.  The element argument is the text of the
located soup element, or `none` when absent.  In the percent branch the
`float` call sits outside any try, so a parse failure there is an uncaught
ValueError, modelled as `.error ()`; the integer branch catches its
ValueError and returns the default. -/
def get_clean_number (element : Option String) (dflt : Value) : Except Unit Value :=
  match element with
  | none => .ok dflt
  | some text =>
    if containsCh text '%' then
      match pyFloat (pyRemoveChar (pyRemoveChar (pyRemoveChar text '%') '+') '-') with
      | none => .error ()
      | some v => .ok (.rat (pyRoundTo (v / 100 - 1) 4))
    else
      match pyIntOfDigits (filterDigits text) with
      | none => .ok dflt
      | some n => .ok (.int n)

/-- Source `get_clean_premium_percentage`: strip `%`; a text containing `+`
is parsed with its plus signs removed, otherwise the text (with any minus
sign) is parsed directly; divide by 100 and round to 4 places.  Its try
block catches the ValueError, so any parse failure returns the default. -/
def get_clean_premium_percentage (element : Option String) (dflt : ℚ) : ℚ :=
  match element with
  | none => dflt
  | some text =>
    let clean := pyRemoveChar text '%'
    if containsCh clean '+' then
      match pyFloat (pyRemoveChar clean '+') with
      | some v => pyRoundTo (v / 100) 4
      | none => dflt
    else if containsCh clean '-' then
      match pyFloat clean with
      | some v => pyRoundTo (v / 100) 4
      | none => dflt
    else
      match pyFloat clean with
      | some v => pyRoundTo (v / 100) 4
      | none => dflt

/-- The 13 column keys of the Sales table (GRIST_MASTER_SCHEMA). -/
def GRIST_MASTER_SCHEMA : List String :=
  ["Date", "Town", "Region", "Median_Sale_Price", "Median_List_Price",
   "Overall_Average_Premium_Paid", "Median_DOM", "Avg_Home_Premium",
   "Avg_Home_DOM", "Hot_Home_Premium", "Hot_Home_DOM", "Num_of_Homes_Sold",
   "Compete_Score"]

/-- Source `normalize_record_for_grist`: one entry per schema key, in schema
order, holding the record's value there or the null marker. -/
def normalize_record_for_grist (record : List (String × Value))
    (schema : List String) : List (String × Value) :=
  schema.map (fun key => (key, (alistGet record key).getD Value.null))

/-- Per-neighborhood scratch dictionary of the CSV scraper (town_data),
modelled as a function from town name to its record. -/
abbrev SeState := String → List (String × Value)

/-- Lexicographic comparison of (year, month, day): datetime `<`. -/
def ymdLtB (a b : ℕ × ℕ × ℕ) : Bool :=
  a.1 < b.1 || (a.1 == b.1 && (a.2.1 < b.2.1 || (a.2.1 == b.2.1 && a.2.2 < b.2.2)))

/-- The five dict assignments performed on `town_data[town]` when a row is
retained, in source order: _DateTimeObject, Date (last day of the row's
month, %m/%d/%Y), Town, Region, then the metric value. -/
def updEntry (old : List (String × Value)) (town : String) (cur : ℕ × ℕ × ℕ)
    (metric_key value : String) : List (String × Value) :=
  alistSet (alistSet (alistSet (alistSet
    (alistSet old "_DateTimeObject" (.dateV cur.1 cur.2.1 cur.2.2))
    "Date" (.str (fmtMonthEnd cur)))
    "Town" (.str town))
    "Region" (.str "New York City"))
    metric_key (.str value)

/-- The `town_data[town].get('_DateTimeObject', datetime.min)` comparison
date: the stored bookkeeping date, defaulting to datetime.min (year 1). -/
def storedDate (entry : List (String × Value)) : ℕ × ℕ × ℕ :=
  match alistGet entry "_DateTimeObject" with
  | some (.dateV y m d) => (y, m, d)
  | _ => (1, 1, 1)

/-- One iteration of the CSV scraper's row loop.  The inner try/except covers
only the three column accesses (IndexError → skip the row); the strptime on
a retained-candidate row sits outside it, so its ValueError (`.error ()`)
aborts the whole feed. -/
def processRow (target_towns : List String) (metric_key : String) (iN iD iV : ℕ)
    (st : SeState) (row : List String) : Except Unit SeState :=
  match row[iN]?, row[iD]?, row[iV]? with
  | some town, some date_str, some value =>
    if town ∈ target_towns then
      match parseYMD date_str with
      | none => .error ()
      | some current_date =>
        if st town = [] ∨ ymdLtB (storedDate (st town)) current_date then
          .ok (fun t =>
            if t = town then updEntry (st town) town current_date metric_key value
            else st t)
        else .ok st
    else .ok st
  | _, _, _ => .ok st

/-- The CSV scraper's row loop over the data rows. -/
def processRows (target_towns : List String) (metric_key : String)
    (iN iD iV : ℕ) (st : SeState) (rows : List (List String)) :
    Except Unit SeState :=
  rows.foldlM (processRow target_towns metric_key iN iD iV) st

/-- Source `scrape_streeteasy_data`, over the parsed CSV rows (the transport
and csv.reader are abstracted; `rows` is what the reader yields).  The first
row is the skipped header; an empty feed (StopIteration) and any uncaught
row-loop exception land in the catch-all, which returns the empty mapping.
On success every town's _DateTimeObject entry is deleted and towns with
empty records are dropped. -/
def scrape_streeteasy_data (rows : List (List String))
    (target_towns : List String) (metric_key : String) (iN iD iV : ℕ) :
    String → Option (List (String × Value)) :=
  match rows with
  | [] => fun _ => none
  | _ :: body =>
    match processRows target_towns metric_key iN iD iV (fun _ => []) body with
    | .error _ => fun _ => none
    | .ok st => fun t =>
      if t ∈ target_towns then
        let r := alistDel (st t) "_DateTimeObject"
        if r = [] then none else some r
      else none

/-- The ten elements `scrape_market_summary` selects from the fetched page:
for each selector, the text of the first matching element, or `none` when
`select_one` found nothing. -/
structure MarketPage where
  long_date_elem : Option String
  sale_price_elem : Option String
  ratio_elem : Option String
  median_dom_elem : Option String
  avg_avg_premium_elem : Option String
  avg_avg_dom_elem : Option String
  hot_avg_premium_elem : Option String
  hot_avg_dom_elem : Option String
  num_of_homes_sold_elem : Option String
  compete_score_elem : Option String

/-- One attempt of the date regex at the head of `cs`: the literal `In`,
whitespace, a letter run, whitespace, four digits.  The captured month-year
is returned with its inner whitespace normalised to one space (strptime's
literal-space format matches any whitespace run, so the composition with
`get_last_day_of_month` is unchanged). -/
def matchInAt (cs : List Char) : Option String :=
  match cs with
  | 'I' :: 'n' :: rest =>
    let ws1 := rest.takeWhile isSpaceCh
    let r1 := rest.dropWhile isSpaceCh
    if ws1 = [] then none else
    let ls := r1.takeWhile Char.isAlpha
    let r2 := r1.dropWhile Char.isAlpha
    if ls = [] then none else
    let ws2 := r2.takeWhile isSpaceCh
    let r3 := r2.dropWhile isSpaceCh
    if ws2 = [] then none else
    match r3 with
    | a :: b :: c :: d :: _ =>
      if isDigitCh a && isDigitCh b && isDigitCh c && isDigitCh d then
        some (String.mk ls ++ " " ++ String.mk [a, b, c, d])
      else none
    | _ => none
  | _ => none

/-- re.search of the source's date pattern: leftmost position at which
`matchInAt` succeeds. -/
def matchMonthYear (cs : List Char) : Option String :=
  match cs with
  | [] => none
  | _ :: t =>
    match matchInAt cs with
    | some r => some r
    | none => matchMonthYear t

/-- The Num_of_Homes_Sold field: trimmed text verbatim when the element is
present, otherwise None. -/
def homesSoldValue (e : Option String) : Value :=
  match e with
  | some t => .str (pyStrip t)
  | none => .null

/-- Source `scrape_market_summary` over the selected elements.  Every uncaught
exception of the source body lands in its catch-all `except` and becomes
None: the AttributeError of a missing critical element, the ValueError of an
unparsable critical number, the ZeroDivisionError when the ratio is zero,
and the ValueError escaping `get_clean_number` on an unparsable
percent-bearing optional metric. -/
def scrape_market_summary (town region : String) (page : MarketPage) :
    Option (List (String × Value)) :=
  match page.long_date_elem with
  | none => none
  | some long_date_text =>
  match matchMonthYear long_date_text.data with
  | none => none
  | some month_year_str =>
  match get_last_day_of_month month_year_str with
  | none => none
  | some formatted_date =>
  match page.sale_price_elem with
  | none => none
  | some sp_text =>
  match pyIntOfDigits (filterDigits sp_text) with
  | none => none
  | some median_sale_price =>
  match page.ratio_elem with
  | none => none
  | some rt_text =>
  match pyFloat (pyRemoveChar rt_text '%') with
  | none => none
  | some rq =>
  let original_ratio := rq / 100
  if original_ratio = 0 then none
  else
  let median_list_price := pyTrunc ((median_sale_price : ℚ) / original_ratio)
  let overall_average_premium_paid := pyRoundTo (original_ratio - 1) 4
  match get_clean_number page.median_dom_elem (.int 0) with
  | .error _ => none
  | .ok median_dom =>
  let avg_home_premium := get_clean_premium_percentage page.avg_avg_premium_elem 0
  match get_clean_number page.avg_avg_dom_elem (.int 0) with
  | .error _ => none
  | .ok avg_home_dom =>
  let hot_home_premium := get_clean_premium_percentage page.hot_avg_premium_elem 0
  match get_clean_number page.hot_avg_dom_elem (.int 0) with
  | .error _ => none
  | .ok hot_home_dom =>
  match get_clean_number page.compete_score_elem (.int 0) with
  | .error _ => none
  | .ok compete_score =>
  some [("Date", .str formatted_date),
        ("Town", .str town),
        ("Region", .str region),
        ("Median_Sale_Price", .int median_sale_price),
        ("Median_List_Price", .int median_list_price),
        ("Overall_Average_Premium_Paid", .rat overall_average_premium_paid),
        ("Median_DOM", median_dom),
        ("Avg_Home_Premium", .rat avg_home_premium),
        ("Avg_Home_DOM", avg_home_dom),
        ("Hot_Home_Premium", .rat hot_home_premium),
        ("Hot_Home_DOM", hot_home_dom),
        ("Num_of_Homes_Sold", homesSoldValue page.num_of_homes_sold_elem),
        ("Compete_Score", compete_score)]

/-- The per-neighborhood result maps handled by __main__'s StreetEasy part. -/
abbrev NbhMap := String → Option (List (String × Value))

/-- One round of the __main__ merge loop: fold one feed's records into the
master dictionary — update the town's record when it is already present,
insert it otherwise. -/
def mergeOne (acc feed : NbhMap) : NbhMap :=
  fun t =>
    match acc t, feed t with
    | some d, some e => some (dictUpdate d e)
    | none, some e => some e
    | some d, none => some d
    | none, none => none

/-- The full merge over the feeds, in feed processing order. -/
def mergeFeeds (feeds : List NbhMap) : NbhMap :=
  feeds.foldl mergeOne (fun _ => none)

/-- Python `float(raw)` on a stored record value; `none` models the
ValueError of an unparsable string.  (In this program's data flow only
strings reach this conversion.) -/
def pyFloatValue (v : Value) : Option ℚ :=
  match v with
  | .str s => pyFloat s
  | .int n => some (n : ℚ)
  | .rat q => some q
  | _ => none

/-- The __main__ calculation step, run once after merging: where the stored
Overall_Average_Premium_Paid is present (and not None), overwrite it with
float(raw) - 1.0, or with None when the conversion raises ValueError. -/
def calcPremiumStep (m : NbhMap) : NbhMap :=
  fun t =>
    (m t).map (fun d =>
      match alistGet d "Overall_Average_Premium_Paid" with
      | none => d
      | some Value.null => d
      | some v =>
        match pyFloatValue v with
        | some q => alistSet d "Overall_Average_Premium_Paid" (.rat (q - 1))
        | none => alistSet d "Overall_Average_Premium_Paid" Value.null)

/-- Value written by the last feed (in feed processing order) that defines
field `k` for neighborhood `t`: the spec-side description of the
update-wins merge. -/
def lastDefined (feeds : List NbhMap) (t k : String) : Option Value :=
  feeds.foldl (fun r f =>
    match (f t).bind (fun d => alistGet d k) with
    | some v => some v
    | none => r) none

/-- The date-critical extraction chain of `scrape_market_summary`: summary
paragraph, regex match, last-day formatting. -/
def dateStage (page : MarketPage) : Option String :=
  (page.long_date_elem.bind (fun t => matchMonthYear t.data)).bind
    get_last_day_of_month

/-- The sale-price-critical extraction: digits of the sale-price element. -/
def salePriceStage (page : MarketPage) : Option ℤ :=
  page.sale_price_elem.bind (fun t => pyIntOfDigits (filterDigits t))

/-- The ratio-critical extraction: percent text parsed and divided by 100. -/
def ratioStage (page : MarketPage) : Option ℚ :=
  (page.ratio_elem.bind (fun t => pyFloat (pyRemoveChar t '%'))).map
    (fun v => v / 100)

/-- The conditions under which the market scraper yields the parse-failed
signal: a critical stage fails, the ratio is zero (division by zero), or one
of the four integer optional metrics carries unparsable percent text (whose
ValueError the catch-all converts to None). -/
def marketFailCond (page : MarketPage) : Prop :=
  dateStage page = none ∨ salePriceStage page = none ∨ ratioStage page = none
  ∨ ratioStage page = some 0
  ∨ get_clean_number page.median_dom_elem (.int 0) = .error ()
  ∨ get_clean_number page.avg_avg_dom_elem (.int 0) = .error ()
  ∨ get_clean_number page.hot_avg_dom_elem (.int 0) = .error ()
  ∨ get_clean_number page.compete_score_elem (.int 0) = .error ()

/-- The canonical shape of a retained town entry: the five keys in the
order their dict assignments first insert them. -/
def canonEntry (town : String) (cur : ℕ × ℕ × ℕ) (metric_key value : String) :
    List (String × Value) :=
  [("_DateTimeObject", .dateV cur.1 cur.2.1 cur.2.2),
   ("Date", .str (fmtMonthEnd cur)),
   ("Town", .str town),
   ("Region", .str "New York City"),
   (metric_key, .str value)]

/-- The metric column name collides with none of the four fixed keys (true
of all five metric keys the program uses). -/
def metricKeyFresh (mk : String) : Prop :=
  mk ≠ "_DateTimeObject" ∧ mk ≠ "Date" ∧ mk ≠ "Town" ∧ mk ≠ "Region"

/-- Invariant of the scraper's scratch dictionary: every town entry is
either untouched or one canonical retained entry. -/
def shapeInv (metric_key : String) (st : SeState) : Prop :=
  ∀ u, st u = [] ∨ ∃ cur v, st u = canonEntry u cur metric_key v

/-- The three indexed columns of a CSV row, when the row is long enough. -/
def rowCols (iN iD iV : ℕ) (row : List String) :
    Option (String × String × String) :=
  match row[iN]?, row[iD]?, row[iV]? with
  | some a, some b, some c => some (a, b, c)
  | _, _, _ => none

/-- Spec-side description: the (date, value) observations a feed's data rows
offer for town `t` (rows with enough columns, that town, a parsed date). -/
def candRows (iN iD iV : ℕ) (t : String) (body : List (List String)) :
    List ((ℕ × ℕ × ℕ) × String) :=
  body.filterMap (fun row =>
    match rowCols iN iD iV row with
    | some (tw, ds, v) =>
      if tw = t then (parseYMD ds).map (fun c => (c, v)) else none
    | none => none)

/-- Spec-side reduction step: keep the strictly later observation. -/
def pickStep (b : Option ((ℕ × ℕ × ℕ) × String)) (p : (ℕ × ℕ × ℕ) × String) :
    Option ((ℕ × ℕ × ℕ) × String) :=
  match b with
  | none => some p
  | some q => if ymdLtB q.1 p.1 then some p else b

/-- Spec-side selection: the first observation attaining the maximum date. -/
def pickLatest (l : List ((ℕ × ℕ × ℕ) × String)) :
    Option ((ℕ × ℕ × ℕ) × String) :=
  l.foldl pickStep none

/-- The record the scraper returns for a town retained with observation `p`:
month-end date, town, region, metric value (the bookkeeping key deleted). -/
def finalRec (t metric_key : String) (p : (ℕ × ℕ × ℕ) × String) :
    List (String × Value) :=
  [("Date", .str (fmtMonthEnd p.1)),
   ("Town", .str t),
   ("Region", .str "New York City"),
   (metric_key, .str p.2)]

/-- Proof-side bridge: the scratch entry corresponding to a running best
observation. -/
def entryOf (t metric_key : String) (b : Option ((ℕ × ℕ × ℕ) × String)) :
    List (String × Value) :=
  match b with
  | none => []
  | some p => canonEntry t p.1 metric_key p.2

/-- Well-formedness of a feed body: every sufficiently long row belonging to
a target neighborhood carries a parseable date (the condition under which
the row loop cannot abort the feed). -/
def feedWF (iN iD iV : ℕ) (target_towns : List String)
    (body : List (List String)) : Prop :=
  ∀ row ∈ body, ∀ tw ds v, rowCols iN iD iV row = some (tw, ds, v) →
    tw ∈ target_towns → (parseYMD ds).isSome = true

/-- The shape of CSV-parser output records: string-valued fields with
distinct keys (what `scrape_streeteasy_data` in fact produces). -/
def feedStrValues (f : NbhMap) : Prop :=
  ∀ t d, f t = some d →
    (∀ k v, (k, v) ∈ d → ∃ s, v = Value.str s) ∧ (d.map Prod.fst).Nodup

/-! ### Lemmas about the record normalizer -/

theorem normalize_get (record : List (String × Value)) (schema : List String)
    (k : String) :
    alistGet (normalize_record_for_grist record schema) k =
      if k ∈ schema then some ((alistGet record k).getD Value.null) else none := by
  induction schema with
  | nil => simp [normalize_record_for_grist, alistGet]
  | cons s rest ih =>
    by_cases h : k = s
    · subst h
      simp [normalize_record_for_grist, alistGet, List.find?]
    · have hks : (s == k) = false := by
        simp only [beq_eq_false_iff_ne, ne_eq]
        exact fun hs => h hs.symm
      simp only [normalize_record_for_grist, List.map_cons, alistGet, List.find?, hks]
      simp only [normalize_record_for_grist, alistGet] at ih
      rw [ih]
      simp [List.mem_cons, h]

/-- C1: for every input record, the normalizer's output has exactly the 13
master-schema keys in schema order; each schema key carries the input's value
when the input has that key and the null marker otherwise (so input keys
outside the schema never appear), and the function is total. -/
theorem normalize_keys_exact (record : List (String × Value)) :
    ((normalize_record_for_grist record GRIST_MASTER_SCHEMA).map Prod.fst
        = GRIST_MASTER_SCHEMA)
    ∧ (∀ k, k ∈ GRIST_MASTER_SCHEMA →
        alistGet (normalize_record_for_grist record GRIST_MASTER_SCHEMA) k
          = some ((alistGet record k).getD Value.null))
    ∧ (∀ k, k ∉ GRIST_MASTER_SCHEMA →
        alistGet (normalize_record_for_grist record GRIST_MASTER_SCHEMA) k = none) := by
  refine ⟨rfl, ?_, ?_⟩
  · intro k hk
    rw [normalize_get]
    simp [hk]
  · intro k hk
    rw [normalize_get]
    simp [hk]

/-- C3 counterexample: percent-bearing text whose remainder is not a
parseable number makes get_clean_number raise (the float call of the percent
branch sits outside the try), rather than return the default. -/
theorem clean_number_percent_raises :
    get_clean_number (some "abc%") (Value.int 0) = .error () := by
  with_unfolding_all decide

/-- C3 (amended): the numeric extractor returns the default on an absent
fragment; on percent-bearing text it strips the % + - characters, parses a
float, divides by 100, subtracts 1 and rounds to 4 places (so "103.0%"
yields 0.03) — but a parse failure there raises an uncaught ValueError
instead of returning the default; on percent-free text it keeps only digits
and parses an integer (so "65" yields 65), returning the default on
failure. -/
theorem clean_number_behaviour (element : Option String) (dflt : Value) :
    get_clean_number none dflt = .ok dflt
    ∧ get_clean_number (some "103.0%") dflt = .ok (.rat (3 / 100))
    ∧ get_clean_number (some "65") dflt = .ok (.int 65)
    ∧ (∀ text v, element = some text → containsCh text '%' = true →
        pyFloat (pyRemoveChar (pyRemoveChar (pyRemoveChar text '%') '+') '-') = some v →
        get_clean_number element dflt = .ok (.rat (pyRoundTo (v / 100 - 1) 4)))
    ∧ (∀ text, element = some text → containsCh text '%' = true →
        pyFloat (pyRemoveChar (pyRemoveChar (pyRemoveChar text '%') '+') '-') = none →
        get_clean_number element dflt = .error ())
    ∧ (∀ text n, element = some text → containsCh text '%' = false →
        pyIntOfDigits (filterDigits text) = some n →
        get_clean_number element dflt = .ok (.int n))
    ∧ (∀ text, element = some text → containsCh text '%' = false →
        pyIntOfDigits (filterDigits text) = none →
        get_clean_number element dflt = .ok dflt) := by
  refine ⟨rfl, ?_, ?_, ?_, ?_, ?_, ?_⟩
  · have h : get_clean_number (some "103.0%") (Value.int 0) = .ok (.rat (3 / 100)) := by
      with_unfolding_all decide
    simpa [get_clean_number] using h
  · have h : get_clean_number (some "65") (Value.int 0) = .ok (.int 65) := by
      with_unfolding_all decide
    simpa [get_clean_number] using h
  · intro text v he hc hp
    subst he
    simp [get_clean_number, hc, hp]
  · intro text he hc hp
    subst he
    simp [get_clean_number, hc, hp]
  · intro text n he hc hp
    subst he
    simp [get_clean_number, hc, hp]
  · intro text he hc hp
    subst he
    simp [get_clean_number, hc, hp]

/-- C4: the premium extractor maps "+8%" to 0.08, "-8%" to -0.08 (the signed
value divided by 100 directly, not the ratio formula), unsigned "8%" to
0.08; in general a text containing '+' is parsed with plus signs stripped,
and otherwise parsed as written (minus sign included), divided by 100 and
rounded to 4 places; an absent fragment and any parse failure give the
default, and the function is total (never raises). -/
theorem clean_premium_behaviour (dflt : ℚ) :
    get_clean_premium_percentage none dflt = dflt
    ∧ get_clean_premium_percentage (some "+8%") dflt = 8 / 100
    ∧ get_clean_premium_percentage (some "-8%") dflt = -(8 / 100)
    ∧ get_clean_premium_percentage (some "8%") dflt = 8 / 100
    ∧ (∀ text v, containsCh (pyRemoveChar text '%') '+' = true →
        pyFloat (pyRemoveChar (pyRemoveChar text '%') '+') = some v →
        get_clean_premium_percentage (some text) dflt = pyRoundTo (v / 100) 4)
    ∧ (∀ text v, containsCh (pyRemoveChar text '%') '+' = false →
        pyFloat (pyRemoveChar text '%') = some v →
        get_clean_premium_percentage (some text) dflt = pyRoundTo (v / 100) 4)
    ∧ (∀ text, containsCh (pyRemoveChar text '%') '+' = true →
        pyFloat (pyRemoveChar (pyRemoveChar text '%') '+') = none →
        get_clean_premium_percentage (some text) dflt = dflt)
    ∧ (∀ text, containsCh (pyRemoveChar text '%') '+' = false →
        pyFloat (pyRemoveChar text '%') = none →
        get_clean_premium_percentage (some text) dflt = dflt) := by
  refine ⟨rfl, ?_, ?_, ?_, ?_, ?_, ?_, ?_⟩
  · have h : get_clean_premium_percentage (some "+8%") 0 = 8 / 100 := by
      with_unfolding_all decide
    simpa [get_clean_premium_percentage] using h
  · have h : get_clean_premium_percentage (some "-8%") 0 = -(8 / 100) := by
      with_unfolding_all decide
    simpa [get_clean_premium_percentage] using h
  · have h : get_clean_premium_percentage (some "8%") 0 = 8 / 100 := by
      with_unfolding_all decide
    simpa [get_clean_premium_percentage] using h
  · intro text v hc hp
    simp [get_clean_premium_percentage, hc, hp]
  · intro text v hc hp
    by_cases hm : containsCh (pyRemoveChar text '%') '-'
    · simp [get_clean_premium_percentage, hc, hm, hp]
    · simp [get_clean_premium_percentage, hc, hm, hp]
  · intro text hc hp
    simp [get_clean_premium_percentage, hc, hp]
  · intro text hc hp
    by_cases hm : containsCh (pyRemoveChar text '%') '-'
    · simp [get_clean_premium_percentage, hc, hm, hp]
    · simp [get_clean_premium_percentage, hc, hm, hp]

/-- C9: for every string the month-year parser accepts (an English month
name, case-insensitively, a space, a four-digit year ≥ 1), the conversion
returns the last calendar day of that month — 29 February exactly in leap
years (divisible by 4 and not by 100 unless by 400), 30 days for April,
June, September, November, else 31 — formatted M/D/YYYY with no leading
zeros on month or day; for a string the parser rejects it returns the
failure marker None instead of raising. -/
theorem last_day_of_month_correct (s : String) :
    (∀ m y, parseMonthYear s = some (m, y) →
      get_last_day_of_month s =
        some (toString m ++ "/" ++
          toString
            (if m = 2 then
              (if y % 4 = 0 ∧ (y % 100 ≠ 0 ∨ y % 400 = 0) then 29 else 28)
            else if m = 4 ∨ m = 6 ∨ m = 9 ∨ m = 11 then 30 else 31) ++
          "/" ++ toString y))
    ∧ (parseMonthYear s = none → get_last_day_of_month s = none) := by
  constructor
  · intro m y h
    have hd : daysInMonth y m =
        (if m = 2 then
          (if y % 4 = 0 ∧ (y % 100 ≠ 0 ∨ y % 400 = 0) then 29 else 28)
        else if m = 4 ∨ m = 6 ∨ m = 9 ∨ m = 11 then 30 else 31) := by
      simp only [daysInMonth, isLeap]
      by_cases h2 : m = 2
      · by_cases h4 : y % 4 = 0
        · by_cases h100 : y % 100 = 0
          · by_cases h400 : y % 400 = 0 <;>
              simp [h2, h4, h100, h400]
          · simp [h2, h4, h100]
        · simp [h2, h4]
      · simp [h2]
    simp [get_last_day_of_month, h, hd]
  · intro h
    simp [get_last_day_of_month, h]

/-- C5 counterexample: with sale price 10 and ratio 103%, the emitted list
price is int(10 / 1.03) = 9 (truncation), while rounding to the nearest
integer would give 10 — the code uses int(), not round(). -/
theorem list_price_truncation_cex :
    ((scrape_market_summary "T" "R"
      { long_date_elem := some "In October 2025, x"
      , sale_price_elem := some "10"
      , ratio_elem := some "103%"
      , median_dom_elem := none
      , avg_avg_premium_elem := none
      , avg_avg_dom_elem := none
      , hot_avg_premium_elem := none
      , hot_avg_dom_elem := none
      , num_of_homes_sold_elem := none
      , compete_score_elem := none }).bind
        (fun r => alistGet r "Median_List_Price")) = some (.int 9)
    ∧ roundHalfEven ((10 : ℚ) / (103 / 100)) = 10
    ∧ (9 : ℤ) ≠ 10 := by
  refine ⟨?_, ?_, by decide⟩
  · with_unfolding_all decide
  · with_unfolding_all decide

/-- C5 (amended): whenever the critical extractions succeed with sale price
s and parsed ratio percentage rq (so the ratio is rq / 100), the emitted
Median_List_Price is the truncation toward zero of s / (rq / 100) — int(),
not rounding to nearest — and Overall_Average_Premium_Paid is
(rq / 100) - 1.0 rounded to 4 decimal places. -/
theorem list_price_and_premium (town region : String) (page : MarketPage)
    (rec : List (String × Value)) (sp rt : String) (s : ℤ) (rq : ℚ)
    (hsp : page.sale_price_elem = some sp)
    (hs : pyIntOfDigits (filterDigits sp) = some s)
    (hrt : page.ratio_elem = some rt)
    (hrq : pyFloat (pyRemoveChar rt '%') = some rq)
    (hres : scrape_market_summary town region page = some rec) :
    alistGet rec "Median_List_Price"
      = some (.int (pyTrunc ((s : ℚ) / (rq / 100))))
    ∧ alistGet rec "Overall_Average_Premium_Paid"
      = some (.rat (pyRoundTo (rq / 100 - 1) 4)) := by
  rcases hld : page.long_date_elem with _ | ldt
  · simp [scrape_market_summary, hld] at hres
  rcases hmy : matchMonthYear ldt.data with _ | my
  · simp [scrape_market_summary, hld, hmy] at hres
  rcases hfd : get_last_day_of_month my with _ | fd
  · simp [scrape_market_summary, hld, hmy, hfd] at hres
  by_cases hz : rq / 100 = 0
  · simp [scrape_market_summary, hld, hmy, hfd, hsp, hs, hrt, hrq, hz] at hres
  rcases h1 : get_clean_number page.median_dom_elem (Value.int 0) with _ | v1
  · simp [scrape_market_summary, hld, hmy, hfd, hsp, hs, hrt, hrq, h1] at hres
  rcases h2 : get_clean_number page.avg_avg_dom_elem (Value.int 0) with _ | v2
  · simp [scrape_market_summary, hld, hmy, hfd, hsp, hs, hrt, hrq, h1, h2] at hres
  rcases h3 : get_clean_number page.hot_avg_dom_elem (Value.int 0) with _ | v3
  · simp [scrape_market_summary, hld, hmy, hfd, hsp, hs, hrt, hrq, h1, h2, h3] at hres
  rcases h4 : get_clean_number page.compete_score_elem (Value.int 0) with _ | v4
  · simp [scrape_market_summary, hld, hmy, hfd, hsp, hs, hrt, hrq,
      h1, h2, h3, h4] at hres
  simp only [scrape_market_summary, hld, hmy, hfd, hsp, hs, hrt, hrq,
    if_neg hz, h1, h2, h3, h4, Option.some.injEq] at hres
  subst hres
  constructor
  · simp [alistGet, List.find?]
  · simp [alistGet, List.find?]

/-- C5 witness: the amended statement at a concrete page (sale price 10,
ratio 103%), with every hypothesis discharged by evaluation. -/
theorem list_price_and_premium_witness :
    alistGet [("Date", Value.str "10/31/2025"), ("Town", Value.str "T"),
      ("Region", Value.str "R"), ("Median_Sale_Price", Value.int 10),
      ("Median_List_Price", Value.int 9),
      ("Overall_Average_Premium_Paid", Value.rat (3 / 100)),
      ("Median_DOM", Value.int 0), ("Avg_Home_Premium", Value.rat 0),
      ("Avg_Home_DOM", Value.int 0), ("Hot_Home_Premium", Value.rat 0),
      ("Hot_Home_DOM", Value.int 0), ("Num_of_Homes_Sold", Value.null),
      ("Compete_Score", Value.int 0)] "Median_List_Price"
      = some (.int (pyTrunc ((10 : ℚ) / ((103 : ℚ) / 100))))
    ∧ alistGet [("Date", Value.str "10/31/2025"), ("Town", Value.str "T"),
      ("Region", Value.str "R"), ("Median_Sale_Price", Value.int 10),
      ("Median_List_Price", Value.int 9),
      ("Overall_Average_Premium_Paid", Value.rat (3 / 100)),
      ("Median_DOM", Value.int 0), ("Avg_Home_Premium", Value.rat 0),
      ("Avg_Home_DOM", Value.int 0), ("Hot_Home_Premium", Value.rat 0),
      ("Hot_Home_DOM", Value.int 0), ("Num_of_Homes_Sold", Value.null),
      ("Compete_Score", Value.int 0)] "Overall_Average_Premium_Paid"
      = some (.rat (pyRoundTo ((103 : ℚ) / 100 - 1) 4)) :=
  list_price_and_premium "T" "R"
    { long_date_elem := some "In October 2025, x"
    , sale_price_elem := some "10"
    , ratio_elem := some "103%"
    , median_dom_elem := none
    , avg_avg_premium_elem := none
    , avg_avg_dom_elem := none
    , hot_avg_premium_elem := none
    , hot_avg_dom_elem := none
    , num_of_homes_sold_elem := none
    , compete_score_elem := none }
    _ "10" "103%" 10 103 rfl (by with_unfolding_all decide) rfl
    (by with_unfolding_all decide) (by with_unfolding_all decide)

/-- C2 counterexample: two pages identical in every critical field; the one
whose optional Median_DOM text is parsable yields a record, the one whose
optional Median_DOM text is unparsable percent text yields the failure
signal — so unparsability of an optional metric does invalidate the whole
record, contradicting the claim. -/
theorem market_optional_metric_cex :
    scrape_market_summary "T" "R"
      { long_date_elem := some "In October 2025, x"
      , sale_price_elem := some "$740,000"
      , ratio_elem := some "103.0%"
      , median_dom_elem := some "x%"
      , avg_avg_premium_elem := none
      , avg_avg_dom_elem := none
      , hot_avg_premium_elem := none
      , hot_avg_dom_elem := none
      , num_of_homes_sold_elem := none
      , compete_score_elem := none } = none
    ∧ (scrape_market_summary "T" "R"
      { long_date_elem := some "In October 2025, x"
      , sale_price_elem := some "$740,000"
      , ratio_elem := some "103.0%"
      , median_dom_elem := some "35"
      , avg_avg_premium_elem := none
      , avg_avg_dom_elem := none
      , hot_avg_premium_elem := none
      , hot_avg_dom_elem := none
      , num_of_homes_sold_elem := none
      , compete_score_elem := none }).isSome = true := by
  constructor
  · with_unfolding_all decide
  · with_unfolding_all decide

/-- C2 (amended): the market parser returns the failure signal exactly when
a critical stage fails — summary paragraph absent, no In-Month-Year match or
unparsable month-year, sale-price element absent or without digits, ratio
element absent or unparsable — or the parsed ratio is zero (division by
zero), or one of the four integer-typed optional metrics (median DOM,
average DOM, hot DOM, compete score) carries percent text whose remainder
does not parse (an uncaught ValueError the catch-all converts to the
signal); absence of any optional element and unparsability of the two
premium metrics never cause failure, and the parser is total. -/
theorem market_failure_iff (town region : String) (page : MarketPage) :
    scrape_market_summary town region page = none ↔ marketFailCond page := by
  unfold marketFailCond dateStage salePriceStage ratioStage
  rcases hld : page.long_date_elem with _ | ldt
  · simp [scrape_market_summary, hld]
  rcases hmy : matchMonthYear ldt.data with _ | my
  · simp [scrape_market_summary, hld, hmy]
  rcases hfd : get_last_day_of_month my with _ | fd
  · simp [scrape_market_summary, hld, hmy, hfd]
  rcases hspe : page.sale_price_elem with _ | sp
  · simp [scrape_market_summary, hld, hmy, hfd, hspe]
  rcases hsi : pyIntOfDigits (filterDigits sp) with _ | s
  · simp [scrape_market_summary, hld, hmy, hfd, hspe, hsi]
  rcases hre : page.ratio_elem with _ | rt
  · simp [scrape_market_summary, hld, hmy, hfd, hspe, hsi, hre]
  rcases hrf : pyFloat (pyRemoveChar rt '%') with _ | rq
  · simp [scrape_market_summary, hld, hmy, hfd, hspe, hsi, hre, hrf]
  by_cases hz : rq / 100 = 0
  · simp [scrape_market_summary, hld, hmy, hfd, hspe, hsi, hre, hrf, hz]
  rcases h1 : get_clean_number page.median_dom_elem (Value.int 0) with _ | v1
  · simp [scrape_market_summary, hld, hmy, hfd, hspe, hsi, hre, hrf, hz, h1]
  rcases h2 : get_clean_number page.avg_avg_dom_elem (Value.int 0) with _ | v2
  · simp [scrape_market_summary, hld, hmy, hfd, hspe, hsi, hre, hrf, hz, h1, h2]
  rcases h3 : get_clean_number page.hot_avg_dom_elem (Value.int 0) with _ | v3
  · simp [scrape_market_summary, hld, hmy, hfd, hspe, hsi, hre, hrf, hz,
      h1, h2, h3]
  rcases h4 : get_clean_number page.compete_score_elem (Value.int 0) with _ | v4
  · simp [scrape_market_summary, hld, hmy, hfd, hspe, hsi, hre, hrf, hz,
      h1, h2, h3, h4]
  simp [scrape_market_summary, hld, hmy, hfd, hspe, hsi, hre, hrf, hz,
    h1, h2, h3, h4]

/-! ### Lemmas about the CSV scraper -/

theorem canonEntry_ne_nil (t : String) (c : ℕ × ℕ × ℕ) (mk v : String) :
    canonEntry t c mk v ≠ [] := by simp [canonEntry]

theorem storedDate_canon (t : String) (c : ℕ × ℕ × ℕ) (mk v : String) :
    storedDate (canonEntry t c mk v) = (c.1, c.2.1, c.2.2) := by
  simp [storedDate, canonEntry, alistGet, List.find?]

theorem updEntry_eq_canon (old : List (String × Value)) (t : String)
    (cur : ℕ × ℕ × ℕ) (mk v : String) (hf : metricKeyFresh mk)
    (hold : old = [] ∨ ∃ c' v', old = canonEntry t c' mk v') :
    updEntry old t cur mk v = canonEntry t cur mk v := by
  obtain ⟨hm1, hm2, hm3, hm4⟩ := hf
  have p1 : "_DateTimeObject" ≠ mk := fun h => hm1 h.symm
  have p2 : "Date" ≠ mk := fun h => hm2 h.symm
  have p3 : "Town" ≠ mk := fun h => hm3 h.symm
  have p4 : "Region" ≠ mk := fun h => hm4 h.symm
  have e1 : ("_DateTimeObject" == mk) = false := by
    simp only [beq_eq_false_iff_ne, ne_eq]; exact p1
  have e2 : ("Date" == mk) = false := by
    simp only [beq_eq_false_iff_ne, ne_eq]; exact p2
  have e3 : ("Town" == mk) = false := by
    simp only [beq_eq_false_iff_ne, ne_eq]; exact p3
  have e4 : ("Region" == mk) = false := by
    simp only [beq_eq_false_iff_ne, ne_eq]; exact p4
  have f1 : (mk == "_DateTimeObject") = false := by
    simp only [beq_eq_false_iff_ne, ne_eq]; exact hm1
  have f2 : (mk == "Date") = false := by
    simp only [beq_eq_false_iff_ne, ne_eq]; exact hm2
  have f3 : (mk == "Town") = false := by
    simp only [beq_eq_false_iff_ne, ne_eq]; exact hm3
  have f4 : (mk == "Region") = false := by
    simp only [beq_eq_false_iff_ne, ne_eq]; exact hm4
  rcases hold with h | ⟨c', v', h⟩ <;> subst h <;>
    simp [updEntry, canonEntry, alistSet, List.find?,
      hm1, hm2, hm3, hm4, p1, p2, p3, p4, e1, e2, e3, e4, f1, f2, f3, f4]

theorem canonEntry_del (t : String) (c : ℕ × ℕ × ℕ) (mk v : String)
    (hf : metricKeyFresh mk) :
    alistDel (canonEntry t c mk v) "_DateTimeObject"
      = finalRec t mk ((c.1, c.2.1, c.2.2), v) := by
  obtain ⟨hm1, _, _, _⟩ := hf
  have f1 : (mk != "_DateTimeObject") = true := by
    simp only [bne_iff_ne, ne_eq]; exact hm1
  simp [canonEntry, alistDel, List.filter, finalRec, f1, fmtMonthEnd]

theorem processRow_shape (target_towns : List String) (mk : String)
    (iN iD iV : ℕ) (st st' : SeState) (row : List String)
    (hf : metricKeyFresh mk) (hinv : shapeInv mk st)
    (h : processRow target_towns mk iN iD iV st row = .ok st') :
    shapeInv mk st' := by
  rcases hN : row[iN]? with _ | town <;>
    rcases hD : row[iD]? with _ | ds <;>
    rcases hV : row[iV]? with _ | v <;>
    simp only [processRow, hN, hD, hV, Except.ok.injEq] at h
  all_goals try (subst h; exact hinv)
  by_cases htw : town ∈ target_towns
  · rw [if_pos htw] at h
    rcases hp : parseYMD ds with _ | cur <;> simp only [hp] at h
    · exact absurd h (by simp)
    by_cases hcond : st town = [] ∨ ymdLtB (storedDate (st town)) cur = true
    · rw [if_pos hcond] at h
      injection h with h'
      subst h'
      intro u
      by_cases hu : u = town
      · subst hu
        refine Or.inr ⟨cur, v, ?_⟩
        simp only [if_pos rfl]
        exact updEntry_eq_canon _ _ _ _ _ hf (hinv u)
      · simp only [if_neg hu]
        exact hinv u
    · rw [if_neg hcond] at h
      injection h with h'
      subst h'
      exact hinv
  · rw [if_neg htw] at h
    injection h with h'
    subst h'
    exact hinv

theorem processRows_shape (target_towns : List String) (mk : String)
    (iN iD iV : ℕ) (hf : metricKeyFresh mk) :
    ∀ (rows : List (List String)) (st st' : SeState), shapeInv mk st →
      processRows target_towns mk iN iD iV st rows = .ok st' →
      shapeInv mk st' := by
  intro rows
  induction rows with
  | nil =>
    intro st st' hinv h
    cases h
    exact hinv
  | cons r rest ih =>
    intro st st' hinv h
    unfold processRows at h
    rw [List.foldlM_cons] at h
    rcases hr : processRow target_towns mk iN iD iV st r with e | s1 <;>
      rw [hr] at h
    · simp [Bind.bind, Except.bind] at h
    · simp only [Bind.bind, Except.bind] at h
      exact ih s1 st' (processRow_shape _ _ _ _ _ _ _ _ hf hinv hr) h

/-- C10: every key the CSV parser returns is a member of the target set; the
record stored under key t has Town = t, Region = 'New York City' and a Date
field; and the _DateTimeObject bookkeeping entry is removed before return. -/
theorem csv_output_invariants (rows : List (List String))
    (target_towns : List String) (mk : String) (iN iD iV : ℕ) (t : String)
    (rec : List (String × Value)) (hf : metricKeyFresh mk)
    (h : scrape_streeteasy_data rows target_towns mk iN iD iV t = some rec) :
    t ∈ target_towns
    ∧ alistGet rec "Town" = some (.str t)
    ∧ alistGet rec "Region" = some (.str "New York City")
    ∧ (alistGet rec "Date").isSome = true
    ∧ alistGet rec "_DateTimeObject" = none := by
  obtain ⟨hm1, hm2, hm3, hm4⟩ := hf
  rcases rows with _ | ⟨hdr, body⟩
  · simp [scrape_streeteasy_data] at h
  rcases hpr : processRows target_towns mk iN iD iV (fun _ => []) body with e | st
  · simp only [scrape_streeteasy_data, hpr] at h
    exact Option.noConfusion h
  simp only [scrape_streeteasy_data, hpr] at h
  have hshape : shapeInv mk st :=
    processRows_shape target_towns mk iN iD iV ⟨hm1, hm2, hm3, hm4⟩ body _ st
      (fun _ => Or.inl rfl) hpr
  by_cases ht : t ∈ target_towns
  · refine ⟨ht, ?_⟩
    rw [if_pos ht] at h
    rcases hshape t with h0 | ⟨cur, v, hcanon⟩
    · rw [h0] at h
      simp [alistDel] at h
    · rw [hcanon, canonEntry_del t cur mk v ⟨hm1, hm2, hm3, hm4⟩] at h
      rw [if_neg (by simp [finalRec])] at h
      injection h with h'
      subst h'
      have g1 : (mk == "_DateTimeObject") = false := by
        simp only [beq_eq_false_iff_ne, ne_eq]; exact hm1
      refine ⟨?_, ?_, ?_, ?_⟩ <;>
        simp [finalRec, alistGet, List.find?, g1]
  · rw [if_neg ht] at h
    simp at h

theorem ymdLtB_trans {a b c : ℕ × ℕ × ℕ} (h1 : ymdLtB a b = true)
    (h2 : ymdLtB b c = true) : ymdLtB a c = true := by
  simp only [ymdLtB, Bool.or_eq_true, Bool.and_eq_true, decide_eq_true_eq,
    beq_iff_eq] at *
  omega

theorem ymdLtB_le_lt_trans {a b c : ℕ × ℕ × ℕ} (h1 : ymdLtB b a = false)
    (h2 : ymdLtB b c = true) : ymdLtB a c = true := by
  simp only [ymdLtB, Bool.or_eq_true, Bool.and_eq_true, decide_eq_true_eq,
    beq_iff_eq, Bool.or_eq_false_iff, Bool.and_eq_false_iff,
    decide_eq_false_iff_not, beq_eq_false_iff_ne, ne_eq] at *
  omega

theorem pickFold_firstmax :
    ∀ (l : List ((ℕ × ℕ × ℕ) × String)) (b : Option ((ℕ × ℕ × ℕ) × String))
      (p : (ℕ × ℕ × ℕ) × String), l.foldl pickStep b = some p →
      (b = some p ∧ ∀ q ∈ l, ymdLtB p.1 q.1 = false)
      ∨ (∃ l1 l2, l = l1 ++ p :: l2
          ∧ (∀ q ∈ l1, ymdLtB q.1 p.1 = true)
          ∧ (∀ q ∈ l2, ymdLtB p.1 q.1 = false)
          ∧ (∀ q, b = some q → ymdLtB q.1 p.1 = true)) := by
  intro l
  induction l with
  | nil =>
    intro b p h
    exact Or.inl ⟨h, by simp⟩
  | cons x rest ih =>
    intro b p h
    rw [List.foldl_cons] at h
    rcases ih (pickStep b x) p h with ⟨hb, hrest⟩ | ⟨l1, l2, hsplit, h1, h2, hb⟩
    · rcases b with _ | q
      · have hx : x = p := by simpa [pickStep] using hb
        subst hx
        exact Or.inr ⟨[], rest, rfl, by simp, hrest, by simp⟩
      · by_cases hq : ymdLtB q.1 x.1 = true
        · have hx : x = p := by simpa [pickStep, hq] using hb
          subst hx
          refine Or.inr ⟨[], rest, rfl, by simp, hrest, ?_⟩
          intro q' hq'
          injection hq' with hq''
          subst hq''
          exact hq
        · have hqp : some q = some p := by simpa [pickStep, hq] using hb
          injection hqp with hqp'
          subst hqp'
          refine Or.inl ⟨rfl, ?_⟩
          intro r hr
          rcases List.mem_cons.mp hr with hr | hr
          · subst hr
            simpa using hq
          · exact hrest r hr
    · have hxlt : ymdLtB x.1 p.1 = true := by
        rcases b with _ | q
        · exact hb x (by simp [pickStep])
        · by_cases hq : ymdLtB q.1 x.1 = true
          · exact hb x (by simp [pickStep, hq])
          · have hqf : ymdLtB q.1 x.1 = false := by simpa using hq
            have hqq := hb q (by simp [pickStep, hq])
            exact ymdLtB_le_lt_trans hqf hqq
      refine Or.inr ⟨x :: l1, l2, by rw [hsplit, List.cons_append], ?_, h2, ?_⟩
      · intro q hq
        rcases List.mem_cons.mp hq with hq | hq
        · subst hq; exact hxlt
        · exact h1 q hq
      · intro q hq
        subst hq
        by_cases hqx : ymdLtB q.1 x.1 = true
        · exact ymdLtB_trans hqx hxlt
        · exact hb q (by simp [pickStep, hqx])

theorem processRow_rowCols_none (target_towns : List String) (mk : String)
    (iN iD iV : ℕ) (st : SeState) (row : List String)
    (h : rowCols iN iD iV row = none) :
    processRow target_towns mk iN iD iV st row = .ok st := by
  rcases hN : row[iN]? with _ | a <;> rcases hD : row[iD]? with _ | b <;>
    rcases hV : row[iV]? with _ | c <;>
    simp only [rowCols, hN, hD, hV] at h <;>
    simp only [processRow, hN, hD, hV]
  exact absurd h (by simp)

theorem rowCols_some_split (iN iD iV : ℕ) (row : List String) (tw ds v : String)
    (h : rowCols iN iD iV row = some (tw, ds, v)) :
    row[iN]? = some tw ∧ row[iD]? = some ds ∧ row[iV]? = some v := by
  rcases hN : row[iN]? with _ | a <;> rcases hD : row[iD]? with _ | b <;>
    rcases hV : row[iV]? with _ | c <;>
    simp only [rowCols, hN, hD, hV, Option.some.injEq, Prod.mk.injEq] at h
  all_goals try exact Option.noConfusion h
  obtain ⟨h1, h2, h3⟩ := h
  subst h1; subst h2; subst h3
  exact ⟨rfl, rfl, rfl⟩

theorem foldlM_ok_bind (f : SeState → List String → Except Unit SeState)
    (st : SeState) (row : List String) (st1 : SeState)
    (rest : List (List String)) (h : f st row = .ok st1) :
    (row :: rest).foldlM f st = rest.foldlM f st1 := by
  rw [List.foldlM_cons, h]
  rfl

theorem csv_fold_single (target_towns : List String) (mk : String)
    (iN iD iV : ℕ) (hf : metricKeyFresh mk) (t : String)
    (ht : t ∈ target_towns) :
    ∀ (body : List (List String)) (st : SeState)
      (b : Option ((ℕ × ℕ × ℕ) × String)),
      feedWF iN iD iV target_towns body →
      st t = entryOf t mk b →
      ∃ st', processRows target_towns mk iN iD iV st body = .ok st' ∧
        st' t = entryOf t mk ((candRows iN iD iV t body).foldl pickStep b) := by
  intro body
  induction body with
  | nil =>
    intro st b hWF hst
    exact ⟨st, rfl, by simpa [candRows] using hst⟩
  | cons row rest ih =>
    intro st b hWF hst
    have hWFr : feedWF iN iD iV target_towns rest :=
      fun r hr => hWF r (List.mem_cons_of_mem _ hr)
    rcases hrc : rowCols iN iD iV row with _ | ⟨tw, ds, v⟩
    · -- short row: skipped, candidates unchanged
      have hskip := processRow_rowCols_none target_towns mk iN iD iV st row hrc
      have hc : candRows iN iD iV t (row :: rest) = candRows iN iD iV t rest := by
        simp [candRows, hrc]
      unfold processRows
      rw [foldlM_ok_bind _ _ _ _ _ hskip, hc]
      exact ih st b hWFr hst
    · obtain ⟨b1, b2, b3⟩ := rowCols_some_split iN iD iV row tw ds v hrc
      by_cases htw : tw ∈ target_towns
      · have hpd := hWF row (List.mem_cons_self _ _) tw ds v hrc htw
        rcases hcur : parseYMD ds with _ | cur
        · rw [hcur] at hpd; simp at hpd
        by_cases htt : tw = t
        · subst htt
          have hc : candRows iN iD iV tw (row :: rest)
              = (cur, v) :: candRows iN iD iV tw rest := by
            simp [candRows, hrc, hcur]
          rcases b with _ | q
          · have hst' : st tw = [] := by simpa [entryOf] using hst
            have hcond : st tw = [] ∨ ymdLtB (storedDate (st tw)) cur = true :=
              Or.inl hst'
            have hpr : processRow target_towns mk iN iD iV st row =
                .ok (fun u => if u = tw then updEntry (st tw) tw cur mk v else st u) := by
              simp only [processRow, b1, b2, b3, if_pos htw, hcur]
              rw [if_pos hcond]
            have hst1 : (fun u => if u = tw then updEntry (st tw) tw cur mk v
                else st u) tw = entryOf tw mk (some (cur, v)) := by
              show (if tw = tw then updEntry (st tw) tw cur mk v else st tw)
                = entryOf tw mk (some (cur, v))
              rw [if_pos rfl]
              show updEntry (st tw) tw cur mk v = canonEntry tw cur mk v
              exact updEntry_eq_canon _ _ _ _ _ hf (Or.inl hst')
            unfold processRows
            rw [foldlM_ok_bind _ _ _ _ _ hpr, hc]
            simpa [List.foldl_cons, pickStep] using
              ih _ (some (cur, v)) hWFr hst1
          · have hst' : st tw = canonEntry tw q.1 mk q.2 := by
              simpa [entryOf] using hst
            have hsd : storedDate (st tw) = q.1 := by
              rw [hst', storedDate_canon]
            by_cases hlt : ymdLtB q.1 cur = true
            · have hcond : st tw = [] ∨ ymdLtB (storedDate (st tw)) cur = true := by
                rw [hsd]; exact Or.inr hlt
              have hpr : processRow target_towns mk iN iD iV st row =
                  .ok (fun u => if u = tw then updEntry (st tw) tw cur mk v else st u) := by
                simp only [processRow, b1, b2, b3, if_pos htw, hcur]
                rw [if_pos hcond]
              have hst1 : (fun u => if u = tw then updEntry (st tw) tw cur mk v
                  else st u) tw = entryOf tw mk (some (cur, v)) := by
                show (if tw = tw then updEntry (st tw) tw cur mk v else st tw)
                  = entryOf tw mk (some (cur, v))
                rw [if_pos rfl]
                show updEntry (st tw) tw cur mk v = canonEntry tw cur mk v
                exact updEntry_eq_canon _ _ _ _ _ hf (Or.inr ⟨q.1, q.2, hst'⟩)
              unfold processRows
              rw [foldlM_ok_bind _ _ _ _ _ hpr, hc]
              have hps : pickStep (some q) (cur, v) = some (cur, v) := by
                simp [pickStep, hlt]
              rw [List.foldl_cons, hps]
              exact ih _ (some (cur, v)) hWFr hst1
            · have hcond : ¬(st tw = [] ∨ ymdLtB (storedDate (st tw)) cur = true) := by
                rw [hsd, hst']
                simp [canonEntry_ne_nil, hlt]
              have hpr : processRow target_towns mk iN iD iV st row = .ok st := by
                simp only [processRow, b1, b2, b3, if_pos htw, hcur]
                rw [if_neg hcond]
              unfold processRows
              rw [foldlM_ok_bind _ _ _ _ _ hpr, hc]
              have hps : pickStep (some q) (cur, v) = some q := by
                simp [pickStep, hlt]
              rw [List.foldl_cons, hps]
              exact ih st (some q) hWFr hst
        · -- a different target town: state at t unchanged
          have hc : candRows iN iD iV t (row :: rest) = candRows iN iD iV t rest := by
            simp [candRows, hrc, htt]
          by_cases hcond : st tw = [] ∨ ymdLtB (storedDate (st tw)) cur = true
          · have hpr : processRow target_towns mk iN iD iV st row =
                .ok (fun u => if u = tw then updEntry (st tw) tw cur mk v else st u) := by
              simp only [processRow, b1, b2, b3, if_pos htw, hcur]
              rw [if_pos hcond]
            have hst1 : (fun u => if u = tw then updEntry (st tw) tw cur mk v
                else st u) t = entryOf t mk b := by
              show (if t = tw then updEntry (st tw) tw cur mk v else st t)
                = entryOf t mk b
              rw [if_neg (fun h => htt h.symm)]
              exact hst
            unfold processRows
            rw [foldlM_ok_bind _ _ _ _ _ hpr, hc]
            exact ih _ b hWFr hst1
          · have hpr : processRow target_towns mk iN iD iV st row = .ok st := by
              simp only [processRow, b1, b2, b3, if_pos htw, hcur]
              rw [if_neg hcond]
            unfold processRows
            rw [foldlM_ok_bind _ _ _ _ _ hpr, hc]
            exact ih st b hWFr hst
      · -- not a target town: dropped before the date parse
        have htt : tw ≠ t := fun h => htw (h ▸ ht)
        have hpr : processRow target_towns mk iN iD iV st row = .ok st := by
          simp only [processRow, b1, b2, b3, if_neg htw]
        have hc : candRows iN iD iV t (row :: rest) = candRows iN iD iV t rest := by
          simp [candRows, hrc, htt]
        unfold processRows
        rw [foldlM_ok_bind _ _ _ _ _ hpr, hc]
        exact ih st b hWFr hst

/-- C6 counterexample: a feed whose later row (for target town A) has an
unparsable date.  Town B has a well-formed row of maximum date carrying
value "7", yet the parser returns nothing for B — the whole feed is
discarded, so the claim's "for each target neighborhood it retains the
value of the row with the maximum date" fails on this feed. -/
theorem csv_latest_selection_cex :
    scrape_streeteasy_data
      [["h"], ["B", "y", "2024-06-10", "y", "7"], ["A", "y", "06/10/2024", "y", "1"]]
      ["A", "B"] "M" 0 2 4 "B" = none
    ∧ pickLatest (candRows 0 2 4 "B"
        [["B", "y", "2024-06-10", "y", "7"], ["A", "y", "06/10/2024", "y", "1"]])
      = some ((2024, 6, 10), "7") := by
  constructor
  · with_unfolding_all decide
  · with_unfolding_all decide

/-- C6 (amended): provided every sufficiently long row of a target
neighborhood carries a parseable date, the CSV parser skips the header,
drops rows outside the target set, skips short rows, and returns for each
target neighborhood exactly the month-end-dated record of the first row
attaining the maximum date among that neighborhood's rows (ties keep the
first-seen row): every earlier candidate has a strictly smaller date and
every later one a date no larger. -/
theorem csv_latest_selection (target_towns : List String) (mk : String)
    (iN iD iV : ℕ) (hdr : List String) (body : List (List String))
    (hf : metricKeyFresh mk) (hWF : feedWF iN iD iV target_towns body)
    (t : String) (ht : t ∈ target_towns) :
    scrape_streeteasy_data (hdr :: body) target_towns mk iN iD iV t
      = (pickLatest (candRows iN iD iV t body)).map (finalRec t mk)
    ∧ (∀ p, pickLatest (candRows iN iD iV t body) = some p →
        ∃ l1 l2, candRows iN iD iV t body = l1 ++ p :: l2
          ∧ (∀ q ∈ l1, ymdLtB q.1 p.1 = true)
          ∧ (∀ q ∈ l2, ymdLtB p.1 q.1 = false)) := by
  constructor
  · obtain ⟨st', hpr, hst'⟩ :=
      csv_fold_single target_towns mk iN iD iV hf t ht body (fun _ => []) none
        hWF rfl
    simp only [scrape_streeteasy_data, hpr, if_pos ht]
    rcases hpick : (candRows iN iD iV t body).foldl pickStep none with _ | p
    · rw [hpick] at hst'
      rw [hst']
      simp [entryOf, alistDel, pickLatest, hpick]
    · rw [hpick] at hst'
      rw [hst']
      have hdel : alistDel (entryOf t mk (some p)) "_DateTimeObject"
          = finalRec t mk ((p.1.1, p.1.2.1, p.1.2.2), p.2) := by
        show alistDel (canonEntry t p.1 mk p.2) "_DateTimeObject" = _
        exact canonEntry_del t p.1 mk p.2 hf
      rw [hdel]
      have hne : finalRec t mk ((p.1.1, p.1.2.1, p.1.2.2), p.2) ≠ [] := by
        simp [finalRec]
      rw [if_neg hne]
      simp only [pickLatest, hpick, Option.map_some]
      rfl
  · intro p hp
    rcases pickFold_firstmax (candRows iN iD iV t body) none p hp with
      ⟨hb, _⟩ | ⟨l1, l2, hsplit, h1, h2, _⟩
    · exact Option.noConfusion hb
    · exact ⟨l1, l2, hsplit, h1, h2⟩

/-- C6 witness: the amended selection statement at a concrete two-row feed
for neighborhood B, all hypotheses discharged concretely. -/
theorem csv_latest_selection_witness :
    scrape_streeteasy_data
      [["h"], ["B", "x", "2025-01-15", "x", "5"], ["B", "x", "2025-03-02", "x", "7"]]
      ["B"] "Median_DOM" 0 2 4 "B"
      = (pickLatest (candRows 0 2 4 "B"
          [["B", "x", "2025-01-15", "x", "5"], ["B", "x", "2025-03-02", "x", "7"]])).map
        (finalRec "B" "Median_DOM") :=
  (csv_latest_selection ["B"] "Median_DOM" 0 2 4 ["h"]
    [["B", "x", "2025-01-15", "x", "5"], ["B", "x", "2025-03-02", "x", "7"]]
    (by refine ⟨?_, ?_, ?_, ?_⟩ <;> decide)
    (by
      intro row hr tw ds v hrc htw
      rcases List.mem_cons.mp hr with rfl | hr
      · have he : rowCols 0 2 4 ["B", "x", "2025-01-15", "x", "5"]
            = some ("B", "2025-01-15", "5") := by decide
        rw [he] at hrc
        simp only [Option.some.injEq, Prod.mk.injEq] at hrc
        obtain ⟨rfl, rfl, rfl⟩ := hrc
        decide
      rcases List.mem_cons.mp hr with rfl | hr
      · have he : rowCols 0 2 4 ["B", "x", "2025-03-02", "x", "7"]
            = some ("B", "2025-03-02", "7") := by decide
        rw [he] at hrc
        simp only [Option.some.injEq, Prod.mk.injEq] at hrc
        obtain ⟨rfl, rfl, rfl⟩ := hrc
        decide
      exact absurd hr (by simp))
    "B" (by decide)).1

theorem processRow_error (target_towns : List String) (mk : String)
    (iN iD iV : ℕ) (st : SeState) (row : List String) (tw ds v : String)
    (hrc : rowCols iN iD iV row = some (tw, ds, v)) (htw : tw ∈ target_towns)
    (hpd : parseYMD ds = none) :
    processRow target_towns mk iN iD iV st row = .error () := by
  obtain ⟨b1, b2, b3⟩ := rowCols_some_split iN iD iV row tw ds v hrc
  simp only [processRow, b1, b2, b3, if_pos htw, hpd]

/-- C7 counterexample: a feed with one good row for B and one bad-date row
for target town A.  Without the bad row the feed yields B's record; with it
the whole feed collapses to the empty mapping — the bad row is not "skipped
individually", and B's accumulated result is discarded. -/
theorem csv_feed_abort_cex :
    scrape_streeteasy_data
      [["h"], ["B", "x", "2025-01-15", "x", "5"], ["A", "x", "banana", "x", "9"]]
      ["A", "B"] "Median_DOM" 0 2 4 "B" = none
    ∧ scrape_streeteasy_data
      [["h"], ["B", "x", "2025-01-15", "x", "5"]]
      ["A", "B"] "Median_DOM" 0 2 4 "B"
      = some [("Date", .str "01/31/2025"), ("Town", .str "B"),
              ("Region", .str "New York City"), ("Median_DOM", .str "5")] := by
  constructor
  · with_unfolding_all decide
  · with_unfolding_all decide

/-- C7 (amended): a row with too few columns is skipped individually — the
feed's result is as if the row were absent; but a row whose neighborhood is
in the target set and whose date does not parse as YYYY-MM-DD raises an
uncaught ValueError, and the feed-level catch-all turns the WHOLE feed into
the empty mapping, discarding results accumulated from other rows; the
parser itself never raises (it is a total function). -/
theorem csv_row_failures (target_towns : List String) (mk : String)
    (iN iD iV : ℕ) (hdr row : List String)
    (rows1 rows2 : List (List String)) :
    (rowCols iN iD iV row = none →
      scrape_streeteasy_data (hdr :: (rows1 ++ row :: rows2)) target_towns mk iN iD iV
        = scrape_streeteasy_data (hdr :: (rows1 ++ rows2)) target_towns mk iN iD iV)
    ∧ (∀ tw ds v, rowCols iN iD iV row = some (tw, ds, v) → tw ∈ target_towns →
        parseYMD ds = none →
        ∀ u, scrape_streeteasy_data (hdr :: (rows1 ++ row :: rows2))
          target_towns mk iN iD iV u = none) := by
  constructor
  · intro h
    have hpp : processRows target_towns mk iN iD iV (fun _ => []) (rows1 ++ row :: rows2)
        = processRows target_towns mk iN iD iV (fun _ => []) (rows1 ++ rows2) := by
      unfold processRows
      rw [List.foldlM_append, List.foldlM_append]
      rcases h1 : rows1.foldlM (processRow target_towns mk iN iD iV) (fun _ => ([] : List (String × Value))) with e | s
      · rfl
      · show (pure s >>= fun s => (row :: rows2).foldlM _ s)
          = (pure s >>= fun s => rows2.foldlM _ s)
        have hskip := processRow_rowCols_none target_towns mk iN iD iV s row h
        simp only [pure, Except.pure, Bind.bind, Except.bind]
        rw [List.foldlM_cons, hskip]
        rfl
    simp only [scrape_streeteasy_data, hpp]
  · intro tw ds v hrc htw hpd u
    have hpp : processRows target_towns mk iN iD iV (fun _ => []) (rows1 ++ row :: rows2)
        = .error () := by
      unfold processRows
      rw [List.foldlM_append]
      rcases h1 : rows1.foldlM (processRow target_towns mk iN iD iV) (fun _ => ([] : List (String × Value))) with e | s
      · rfl
      · show (pure s >>= fun s => (row :: rows2).foldlM _ s) = _
        have herr := processRow_error target_towns mk iN iD iV s row tw ds v hrc htw hpd
        simp only [pure, Except.pure, Bind.bind, Except.bind]
        rw [List.foldlM_cons, herr]
        rfl
    simp only [scrape_streeteasy_data, hpp]

/-! ### Lemmas about the merge step -/

theorem alistGet_cons_hit (a : String × Value) (d : List (String × Value))
    (k : String) (h : a.1 = k) : alistGet (a :: d) k = some a.2 := by
  have hb : (a.1 == k) = true := by simp [h]
  simp [alistGet, List.find?, hb]

theorem alistGet_cons_miss (a : String × Value) (d : List (String × Value))
    (k : String) (h : a.1 ≠ k) : alistGet (a :: d) k = alistGet d k := by
  have hb : (a.1 == k) = false := by simp [h]
  simp [alistGet, List.find?, hb]

theorem alistGet_map_replace_ne (d : List (String × Value)) (k : String)
    (v : Value) (k' : String) (hk : k' ≠ k) :
    alistGet (d.map (fun p => if p.1 == k then (k, v) else p)) k'
      = alistGet d k' := by
  induction d with
  | nil => rfl
  | cons a rest ih =>
    rw [List.map_cons]
    by_cases hak : a.1 = k
    · rw [show (if (a.1 == k) = true then (k, v) else a) = (k, v) by simp [hak]]
      rw [alistGet_cons_miss (k, v) _ k' (fun h => hk h.symm)]
      rw [alistGet_cons_miss a rest k' (by rw [hak]; exact fun h => hk h.symm)]
      exact ih
    · rw [show (if (a.1 == k) = true then (k, v) else a) = a by simp [hak]]
      by_cases hak' : a.1 = k'
      · rw [alistGet_cons_hit a _ k' hak', alistGet_cons_hit a rest k' hak']
      · rw [alistGet_cons_miss a _ k' hak', alistGet_cons_miss a rest k' hak']
        exact ih

theorem alistGet_map_replace_found (d : List (String × Value)) (k : String)
    (v : Value) (hmem : (d.find? (fun p => p.1 == k)).isSome = true) :
    alistGet (d.map (fun p => if p.1 == k then (k, v) else p)) k = some v := by
  induction d with
  | nil => simp [List.find?] at hmem
  | cons a rest ih =>
    rw [List.map_cons]
    by_cases hak : a.1 = k
    · rw [show (if (a.1 == k) = true then (k, v) else a) = (k, v) by simp [hak]]
      exact alistGet_cons_hit (k, v) _ k rfl
    · have hb : (a.1 == k) = false := by simp [hak]
      rw [List.find?_cons, hb] at hmem
      rw [show (if (a.1 == k) = true then (k, v) else a) = a by simp [hak]]
      rw [alistGet_cons_miss a _ k hak]
      exact ih hmem

theorem alistGet_alistSet (d : List (String × Value)) (k : String) (v : Value)
    (k' : String) :
    alistGet (alistSet d k v) k' = if k' = k then some v else alistGet d k' := by
  unfold alistSet
  by_cases hmem : (d.find? (fun p => p.1 == k)).isSome = true
  · rw [if_pos hmem]
    by_cases hk : k' = k
    · subst hk
      rw [if_pos rfl]
      exact alistGet_map_replace_found d k' v hmem
    · rw [if_neg hk]
      exact alistGet_map_replace_ne d k v k' hk
  · rw [if_neg hmem]
    have hfind : d.find? (fun p => p.1 == k) = none := by
      rcases hfd : d.find? (fun p => p.1 == k) with _ | x
      · exact hfd
      · rw [hfd] at hmem; simp at hmem
    by_cases hk : k' = k
    · subst hk
      rw [if_pos rfl]
      unfold alistGet
      rw [List.find?_append, hfind]
      simp [List.find?]
    · rw [if_neg hk]
      unfold alistGet
      rw [List.find?_append]
      have h1 : (k == k') = false := by
        simp only [beq_eq_false_iff_ne, ne_eq]
        exact fun h => hk h.symm
      rcases hfd : d.find? (fun p => p.1 == k') with _ | x <;>
        simp [List.find?, Option.orElse, h1]

theorem alistGet_of_not_mem (d : List (String × Value)) (k : String)
    (h : k ∉ d.map Prod.fst) :
    alistGet d k = none := by
  unfold alistGet
  rw [List.find?_eq_none.mpr]
  · rfl
  · intro x hx
    simp only [Bool.not_eq_true, beq_eq_false_iff_ne, ne_eq]
    exact fun e => h (e ▸ List.mem_map_of_mem Prod.fst hx)

theorem alistGet_dictUpdate (d e : List (String × Value)) (k : String)
    (he : (e.map Prod.fst).Nodup) :
    alistGet (dictUpdate d e) k =
      match alistGet e k with
      | some v => some v
      | none => alistGet d k := by
  induction e generalizing d with
  | nil => simp [dictUpdate, alistGet, List.find?]
  | cons a rest ih =>
    rw [List.map_cons, List.nodup_cons] at he
    obtain ⟨hnot, hrest⟩ := he
    have hstep : dictUpdate d (a :: rest) = dictUpdate (alistSet d a.1 a.2) rest := by
      simp [dictUpdate]
    rw [hstep, ih _ hrest]
    by_cases hk : k = a.1
    · rw [hk, alistGet_of_not_mem rest a.1 hnot, alistGet_cons_hit a rest a.1 rfl]
      simp [alistGet_alistSet]
    · rw [alistGet_cons_miss a rest k (fun h => hk h.symm)]
      rw [alistGet_alistSet, if_neg hk]

theorem mergeOne_get (acc feed : NbhMap) (t k : String)
    (hfeed : ∀ d, feed t = some d → (d.map Prod.fst).Nodup) :
    (mergeOne acc feed t).bind (fun d => alistGet d k) =
      match (feed t).bind (fun d => alistGet d k) with
      | some v => some v
      | none => (acc t).bind (fun d => alistGet d k) := by
  unfold mergeOne
  rcases ha : acc t with _ | d <;> rcases hf : feed t with _ | e
  · simp
  · simp only [Option.some_bind, Option.none_bind]
    rcases hek : alistGet e k with _ | v <;> simp [hek]
  · simp
  · simp only [Option.some_bind]
    rw [alistGet_dictUpdate d e k (hfeed e hf)]

theorem mergeFold_get (feeds : List NbhMap) :
    ∀ (acc : NbhMap) (t k : String),
    (∀ f ∈ feeds, feedStrValues f) →
    ((feeds.foldl mergeOne acc) t).bind (fun d => alistGet d k) =
      feeds.foldl (fun r f =>
        match (f t).bind (fun d => alistGet d k) with
        | some v => some v
        | none => r) ((acc t).bind (fun d => alistGet d k)) := by
  induction feeds with
  | nil => intro acc t k _; rfl
  | cons f rest ih =>
    intro acc t k hf
    rw [List.foldl_cons, List.foldl_cons]
    rw [ih (mergeOne acc f) t k (fun g hg => hf g (List.mem_cons_of_mem _ hg))]
    congr 1
    exact mergeOne_get acc f t k
      (fun d hd => (hf f (List.mem_cons_self _ _) t d hd).2)

theorem mergeFold_isSome (feeds : List NbhMap) :
    ∀ (acc : NbhMap) (t : String),
    ((feeds.foldl mergeOne acc) t).isSome
      = ((acc t).isSome || feeds.any (fun f => (f t).isSome)) := by
  induction feeds with
  | nil => intro acc t; simp
  | cons f rest ih =>
    intro acc t
    rw [List.foldl_cons, ih (mergeOne acc f) t]
    have h1 : (mergeOne acc f t).isSome = ((acc t).isSome || (f t).isSome) := by
      unfold mergeOne
      rcases acc t with _ | d <;> rcases f t with _ | e <;> simp
    rw [h1, List.any_cons, Bool.or_assoc]

theorem calcStep_isSome (m : NbhMap) (t : String) :
    ((calcPremiumStep m) t).isSome = (m t).isSome := by
  unfold calcPremiumStep
  cases m t <;> rfl

theorem calcArm_get_other (d : List (String × Value)) (k : String)
    (hk : k ≠ "Overall_Average_Premium_Paid") (v : Value) :
    alistGet (match pyFloatValue v with
      | some q => alistSet d "Overall_Average_Premium_Paid" (.rat (q - 1))
      | none => alistSet d "Overall_Average_Premium_Paid" Value.null) k
      = alistGet d k := by
  rcases pyFloatValue v with _ | q <;> simp only [] <;>
    rw [alistGet_alistSet, if_neg hk]

theorem calcStep_get_other (m : NbhMap) (t k : String)
    (hk : k ≠ "Overall_Average_Premium_Paid") :
    ((calcPremiumStep m) t).bind (fun d => alistGet d k)
      = (m t).bind (fun d => alistGet d k) := by
  unfold calcPremiumStep
  rcases m t with _ | d
  · simp
  · simp only [Option.map_some', Option.some_bind]
    rcases hr : alistGet d "Overall_Average_Premium_Paid" with _ | v
    · rfl
    · rcases v with s | n | q | ⟨y, m, d2⟩ | _
      · exact calcArm_get_other d k hk (Value.str s)
      · exact calcArm_get_other d k hk (Value.int n)
      · exact calcArm_get_other d k hk (Value.rat q)
      · exact calcArm_get_other d k hk (Value.dateV y m d2)
      · rfl

/-- C8: the StreetEasy merge is an update-wins union — for every
neighborhood and field, the merged value is the one written by the last
feed defining that field (so the union of all defined fields is present,
and a neighborhood appears iff some feed has it); afterwards, a present
Overall_Average_Premium_Paid string is replaced by float(value) - 1.0, or
by null when the string does not parse, without raising. -/
theorem merge_update_wins (feeds : List NbhMap)
    (hf : ∀ f ∈ feeds, feedStrValues f) (t : String) :
    (((calcPremiumStep (mergeFeeds feeds)) t).isSome
        = feeds.any (fun f => (f t).isSome))
    ∧ (∀ k, k ≠ "Overall_Average_Premium_Paid" →
        ((calcPremiumStep (mergeFeeds feeds)) t).bind (fun d => alistGet d k)
          = lastDefined feeds t k)
    ∧ (lastDefined feeds t "Overall_Average_Premium_Paid" = none →
        ((calcPremiumStep (mergeFeeds feeds)) t).bind
          (fun d => alistGet d "Overall_Average_Premium_Paid") = none)
    ∧ (∀ s, lastDefined feeds t "Overall_Average_Premium_Paid" = some (.str s) →
        ((calcPremiumStep (mergeFeeds feeds)) t).bind
          (fun d => alistGet d "Overall_Average_Premium_Paid")
          = some (match pyFloat s with
                  | some q => Value.rat (q - 1)
                  | none => Value.null)) := by
  have hmg : ∀ k, ((mergeFeeds feeds) t).bind (fun d => alistGet d k)
      = lastDefined feeds t k := by
    intro k
    unfold mergeFeeds lastDefined
    exact mergeFold_get feeds (fun _ => none) t k hf
  refine ⟨?_, ?_, ?_, ?_⟩
  · rw [calcStep_isSome]
    unfold mergeFeeds
    rw [mergeFold_isSome feeds (fun _ => none) t]
    simp
  · intro k hk
    rw [calcStep_get_other _ _ _ hk]
    exact hmg k
  · intro hnone
    have h := hmg "Overall_Average_Premium_Paid"
    rw [hnone] at h
    unfold calcPremiumStep
    rcases hm : (mergeFeeds feeds) t with _ | d
    · simp
    · rw [hm] at h
      simp only [Option.some_bind] at h
      simp only [Option.map_some', Option.some_bind, h]
  · intro s hs
    have h := hmg "Overall_Average_Premium_Paid"
    rw [hs] at h
    unfold calcPremiumStep
    rcases hm : (mergeFeeds feeds) t with _ | d
    · rw [hm] at h
      simp at h
    · rw [hm] at h
      simp only [Option.some_bind] at h
      simp only [Option.map_some', Option.some_bind, h]
      show alistGet (match pyFloatValue (Value.str s) with
        | some q => alistSet d "Overall_Average_Premium_Paid" (.rat (q - 1))
        | none => alistSet d "Overall_Average_Premium_Paid" Value.null)
        "Overall_Average_Premium_Paid" = _
      rcases hp : pyFloatValue (Value.str s) with _ | q <;>
        simp only [] <;>
        rw [alistGet_alistSet, if_pos rfl] <;>
        simp only [pyFloatValue] at hp <;>
        rw [hp]

/-- C8 witness: the merge statement at a concrete single feed holding one
string ratio for neighborhood A, the feed-shape hypothesis discharged
explicitly. -/
theorem merge_update_wins_witness :
    ((calcPremiumStep (mergeFeeds
        [fun u => if u = "A" then
            some [("Overall_Average_Premium_Paid", Value.str "1.05")]
          else none])) "A").isSome
      = [fun u => if u = "A" then
            some [("Overall_Average_Premium_Paid", Value.str "1.05")]
          else none].any (fun f => (f "A").isSome) :=
  (merge_update_wins
    [fun u => if u = "A" then
        some [("Overall_Average_Premium_Paid", Value.str "1.05")]
      else none]
    (by
      intro f hfm
      rcases List.mem_singleton.mp hfm with rfl
      intro t d hd
      have hd2 : (if t = "A" then
          some [("Overall_Average_Premium_Paid", Value.str "1.05")]
        else none) = some d := hd
      by_cases ht : t = "A"
      · rw [if_pos ht] at hd2
        injection hd2 with hd'
        subst hd'
        constructor
        · intro k v hkv
          rcases List.mem_singleton.mp hkv with hkv'
          obtain ⟨-, rfl⟩ := Prod.mk.injEq .. ▸ hkv'
          exact ⟨"1.05", rfl⟩
        · decide
      · rw [if_neg ht] at hd2
        exact Option.noConfusion hd2)
    "A").1

/-- C10 witness: the invariants at a concrete one-row feed for target
neighborhood A, hypotheses discharged by evaluation. -/
theorem csv_output_invariants_witness :
    "A" ∈ ["A"]
    ∧ alistGet [("Date", Value.str "01/31/2025"), ("Town", Value.str "A"),
        ("Region", Value.str "New York City"), ("Median_DOM", Value.str "5")]
        "Town" = some (.str "A")
    ∧ alistGet [("Date", Value.str "01/31/2025"), ("Town", Value.str "A"),
        ("Region", Value.str "New York City"), ("Median_DOM", Value.str "5")]
        "Region" = some (.str "New York City")
    ∧ (alistGet [("Date", Value.str "01/31/2025"), ("Town", Value.str "A"),
        ("Region", Value.str "New York City"), ("Median_DOM", Value.str "5")]
        "Date").isSome = true
    ∧ alistGet [("Date", Value.str "01/31/2025"), ("Town", Value.str "A"),
        ("Region", Value.str "New York City"), ("Median_DOM", Value.str "5")]
        "_DateTimeObject" = none :=
  csv_output_invariants [["h"], ["A", "x", "2025-01-15", "x", "5"]] ["A"]
    "Median_DOM" 0 2 4 "A"
    [("Date", Value.str "01/31/2025"), ("Town", Value.str "A"),
     ("Region", Value.str "New York City"), ("Median_DOM", Value.str "5")]
    (by refine ⟨?_, ?_, ?_, ?_⟩ <;> decide)
    (by with_unfolding_all decide)
